import Mathlib

/-!
Verification of the shape-simulation core (src/src/App.tsx) against its
natural-language specification.

The embedding uses exact rationals (ℚ) for the numeric fields that the
source manipulates with ordinary arithmetic, and real numbers with the
trigonometric functions passed as explicit function arguments for the
orbit case (the source calls the opaque Math.cos / Math.sin).  Shape
kinds, movement modes and textures are embedded as strings, matching the
JavaScript runtime where the TypeScript unions are erased and switch
statements compare string values.
-/

/-- A 3-component vector, mirroring the `[number, number, number]` tuples
of the source. -/
structure Vec3 (α : Type) where
  x : α
  y : α
  z : α
deriving DecidableEq

/-- The authoritative scene entity, mirroring the `ShapeObject` type of
App.tsx (lines 15-36). -/
structure ShapeObject where
  id : String
  type : String
  position : Vec3 ℚ
  rotation : Vec3 ℚ
  scale : Vec3 ℚ
  color : String
  texture : String
  metalness : ℚ
  roughness : ℚ
  emissive : String
  emissiveIntensity : ℚ
  opacity : ℚ
  radius : ℚ
  height : ℚ
  name : String
  isAnimated : Bool
  movementMode : String
  movementSpeed : ℚ
  movementRange : ℚ
  originalPosition : Vec3 ℚ
deriving DecidableEq

/-- Primitive mesh description: the constructor arguments of the THREE
geometry classes that `createGeometry` instantiates. -/
inductive Geometry where
  | sphereGeo (radius : ℚ) (widthSegments heightSegments : Nat)
  | cylinderGeo (radiusTop radiusBottom height : ℚ) (radialSegments : Nat)
  | boxGeo (width height depth : ℚ)
  | coneGeo (radius height : ℚ) (radialSegments : Nat)
  | torusGeo (radius tube : ℚ) (radialSegments tubularSegments : Nat)
  | tetrahedronGeo (radius : ℚ)
  | dodecahedronGeo (radius : ℚ)
  | icosahedronGeo (radius : ℚ)
deriving DecidableEq

/-- `createGeometry` from App.tsx lines 533-550.  The JavaScript switch
compares the (runtime) string `type` against each case label in order and
falls back to a sphere in the default branch; the nested conditionals
below reproduce that sequential comparison. -/
def createGeometry (type : String) (radius height : ℚ) : Geometry :=
  if type = "sphere" then .sphereGeo radius 64 64
  else if type = "cylinder" then .cylinderGeo radius radius height 64
  else if type = "cube" then .boxGeo (radius * 2) (radius * 2) (radius * 2)
  else if type = "cone" then .coneGeo radius height 64
  else if type = "torus" then .torusGeo radius (radius / 3) 64 64
  else if type = "pyramid" then .coneGeo radius height 4
  else if type = "prism" then .cylinderGeo radius radius height 3
  else if type = "pentagonalPrism" then .cylinderGeo radius radius height 5
  else if type = "hexagonalPrism" then .cylinderGeo radius radius height 6
  else if type = "octagonalPrism" then .cylinderGeo radius radius height 8
  else if type = "tetrahedron" then .tetrahedronGeo radius
  else if type = "dodecahedron" then .dodecahedronGeo radius
  else if type = "icosahedron" then .icosahedronGeo radius
  else .sphereGeo radius 64 64

/-- The material parameters that the reconciliation effect derives from an
object's appearance fields (App.tsx lines 416-426 on creation, 439-447 on
update; both write exactly these fields).  The texture handle is kept as
the selecting name, `none` for a null map. -/
structure Material where
  color : String
  metalness : ℚ
  roughness : ℚ
  emissive : String
  emissiveIntensity : ℚ
  transparent : Bool
  opacity : ℚ
  map : Option String
deriving DecidableEq

/-- Material derived from an object's appearance fields. -/
def materialOf (obj : ShapeObject) : Material :=
  { color := obj.color
    metalness := obj.metalness
    roughness := obj.roughness
    emissive := obj.emissive
    emissiveIntensity := obj.emissiveIntensity
    transparent := decide (obj.opacity < 1)
    opacity := obj.opacity
    map := if obj.texture = "none" then none else some obj.texture }

/-- A live scene node: geometry and material resources, transform, and the
cached `userData` triple (type, radius, height) that decides geometry
rebuilds (App.tsx line 430 and lines 450-459). -/
structure Mesh where
  geometry : Geometry
  material : Material
  position : Vec3 ℚ
  rotation : Vec3 ℚ
  scale : Vec3 ℚ
  userDataType : String
  userDataRadius : ℚ
  userDataHeight : ℚ
deriving DecidableEq

/-- The `meshesRef` map, keyed by object id (insertion ordered, like a
JavaScript Map). -/
abbrev MeshMap := List (String × Mesh)

/-- Lookup in the mesh map (`meshesRef.current.get(id)`). -/
def lookupMesh (id : String) : MeshMap → Option Mesh
  | [] => none
  | p :: rest => if p.1 = id then some p.2 else lookupMesh id rest

/-- Replace the value stored at an existing key
(`meshesRef.current.set(id, mesh)` on a key already present keeps the
entry in place). -/
def setMesh (id : String) (mesh : Mesh) : MeshMap → MeshMap
  | [] => []
  | p :: rest => if p.1 = id then (id, mesh) :: setMesh id mesh rest
                 else p :: setMesh id mesh rest

/-- Mesh creation branch of the reconciliation effect (App.tsx lines
414-432): allocate geometry via `createGeometry`, build the material from
the appearance fields, record the (type, radius, height) triple in
`userData`.  The source does not copy the object's transform onto a newly
created mesh, so the node keeps the THREE defaults (origin position, zero
rotation, unit scale) until the next pass. -/
def createMesh (obj : ShapeObject) : Mesh :=
  { geometry := createGeometry obj.type obj.radius obj.height
    material := materialOf obj
    position := ⟨0, 0, 0⟩
    rotation := ⟨0, 0, 0⟩
    scale := ⟨1, 1, 1⟩
    userDataType := obj.type
    userDataRadius := obj.radius
    userDataHeight := obj.height }

/-- Resource-churn counters for one reconciliation pass: geometry
allocations, geometry disposals, material allocations, material
disposals. -/
structure Counts where
  geomAlloc : Nat
  geomDispose : Nat
  matAlloc : Nat
  matDispose : Nat
deriving DecidableEq

/-- Mesh update branch of the reconciliation effect (App.tsx lines
433-460): always re-apply transform and material fields; then, only if the
cached `userData` (type, radius, height) differs from the object's current
values, dispose the old geometry, rebuild it via `createGeometry`, and
refresh the cache.  Returns the updated mesh together with the geometry
allocation/disposal counts of this branch. -/
def applyUpdate (obj : ShapeObject) (mesh : Mesh) : Mesh × Counts :=
  let m1 : Mesh :=
    { mesh with
        position := obj.position
        rotation := obj.rotation
        scale := obj.scale
        material := materialOf obj }
  if mesh.userDataType ≠ obj.type ∨ mesh.userDataRadius ≠ obj.radius ∨
      mesh.userDataHeight ≠ obj.height then
    ({ m1 with
        geometry := createGeometry obj.type obj.radius obj.height
        userDataType := obj.type
        userDataRadius := obj.radius
        userDataHeight := obj.height },
     ⟨1, 1, 0, 0⟩)
  else (m1, ⟨0, 0, 0, 0⟩)

/-- One step of the add-or-update loop of the reconciliation effect
(App.tsx lines 408-462), threading the mesh map and the churn counters. -/
def syncObject (acc : MeshMap × Counts) (obj : ShapeObject) : MeshMap × Counts :=
  match lookupMesh obj.id acc.1 with
  | none =>
      (acc.1 ++ [(obj.id, createMesh obj)],
       { acc.2 with
           geomAlloc := acc.2.geomAlloc + 1
           matAlloc := acc.2.matAlloc + 1 })
  | some mesh =>
      let r := applyUpdate obj mesh
      (setMesh obj.id r.1 acc.1,
       { geomAlloc := acc.2.geomAlloc + r.2.geomAlloc
         geomDispose := acc.2.geomDispose + r.2.geomDispose
         matAlloc := acc.2.matAlloc + r.2.matAlloc
         matDispose := acc.2.matDispose + r.2.matDispose })

/-- Phase 1 of the reconciliation effect (App.tsx lines 396-405): keep
only the meshes whose id is still in the store (`currentIds`); every other
mesh is removed from the scene and its geometry and material disposed. -/
def pruneMeshes (objects : List ShapeObject) (meshes : MeshMap) : MeshMap :=
  meshes.filter (fun p => decide (p.1 ∈ objects.map ShapeObject.id))

/-- The whole Update Objects Effect (App.tsx lines 390-462): phase 1
removes stale meshes (one geometry disposal and one material disposal
each), phase 2 folds the add-or-update step over the store snapshot. -/
def reconcile (objects : List ShapeObject) (meshes : MeshMap) : MeshMap × Counts :=
  objects.foldl syncObject
    (pruneMeshes objects meshes,
     ⟨0, meshes.length - (pruneMeshes objects meshes).length,
      0, meshes.length - (pruneMeshes objects meshes).length⟩)

/-- The initial store contents (App.tsx lines 108-131). -/
def initialObject : ShapeObject :=
  { id := "1"
    type := "torus"
    position := ⟨0, 0, 0⟩
    rotation := ⟨0, 0, 0⟩
    scale := ⟨1, 1, 1⟩
    color := "#6366f1"
    texture := "noise"
    metalness := 1/2
    roughness := 1/5
    emissive := "#000000"
    emissiveIntensity := 0
    opacity := 1
    radius := 3
    height := 3
    name := "Primary Torus"
    isAnimated := false
    movementMode := "none"
    movementSpeed := 1
    movementRange := 5
    originalPosition := ⟨0, 0, 0⟩ }

/-- The object built by `addObject` (App.tsx lines 560-583).  The source
draws `Math.random()` separately for each random slot; the draws are made
explicit arguments here, in the order the source evaluates them: `r1`,
`r2` for the x and z of `position`, `rc` for the color, `r3`, `r4` for the
x and z of `originalPosition`.  `n` is the current store length. -/
def newShapeObject (newId : String) (r1 r2 : ℚ) (rc : String) (r3 r4 : ℚ)
    (n : Nat) : ShapeObject :=
  { id := newId
    type := "sphere"
    position := ⟨(r1 - 1/2) * 10, 2, (r2 - 1/2) * 10⟩
    rotation := ⟨0, 0, 0⟩
    scale := ⟨1, 1, 1⟩
    color := rc
    texture := "none"
    metalness := 1/2
    roughness := 1/2
    emissive := "#000000"
    emissiveIntensity := 0
    opacity := 1
    radius := 2
    height := 2
    name := "Object-" ++ toString (n + 1)
    isAnimated := false
    movementMode := "none"
    movementSpeed := 1
    movementRange := 5
    originalPosition := ⟨(r3 - 1/2) * 10, 2, (r4 - 1/2) * 10⟩ }

/-- `addObject` (App.tsx lines 560-586): append the new object to the
store. -/
def addObject (newId : String) (r1 r2 : ℚ) (rc : String) (r3 r4 : ℚ)
    (objects : List ShapeObject) : List ShapeObject :=
  objects ++ [newShapeObject newId r1 r2 rc r3 r4 objects.length]

/-- `deleteObject` (App.tsx lines 645-650): a no-op when at most one
object remains; otherwise filter the id out and, when the deleted id was
the selected one, select the first remaining object. -/
def deleteObject (id : String) (objects : List ShapeObject)
    (sel : Option String) : List ShapeObject × Option String :=
  if objects.length ≤ 1 then (objects, sel)
  else
    (objects.filter (fun o => decide (o.id ≠ id)),
     if sel = some id then
       Option.map ShapeObject.id (objects.filter (fun o => decide (o.id ≠ id))).head?
     else sel)

/-- The straight-movement case of the frame loop (App.tsx lines 307-313):
add `0.02 · speed` to the node's z, then wrap to `home.z − 50` once the
distance from home exceeds 50.  Returns the node's new z. -/
def animateStraight (homeZ speed z : ℚ) : ℚ :=
  let z1 := z + 1/50 * speed
  if 50 < |z1 - homeZ| then homeZ - 50 else z1

/-- The per-object state relevant to returning mode: the live node
position, plus the stored position and movement mode of the ObjectStore
entry. -/
structure RetState where
  nodePos : Vec3 ℚ
  storedPos : Vec3 ℚ
  storedMode : String
deriving DecidableEq

/-- The returning-movement case of the frame loop (App.tsx lines
320-340), for an object whose home is `home` and movement speed `speed`.
Each axis moves by `(home.axis − node.axis) · (0.05 · speed)`; when the
Euclidean distance to home of the moved position falls below `0.01` the
node is snapped to home and the deferred `setTimeout` commit writes
`position = home`, `movementMode = none` into the store.  The source
compares `Math.sqrt(d2) < 0.01`, embedded here as the equivalent exact
comparison `d2 < 0.0001`; the zero-delay deferral is flattened into the
same step, which preserves the committed values.  A frame only runs this
case while the stored mode is `returning`. -/
def animateReturning (home : Vec3 ℚ) (speed : ℚ) (s : RetState) : RetState :=
  if s.storedMode = "returning" then
    let step := 1/20 * speed
    let x1 := s.nodePos.x + (home.x - s.nodePos.x) * step
    let y1 := s.nodePos.y + (home.y - s.nodePos.y) * step
    let z1 := s.nodePos.z + (home.z - s.nodePos.z) * step
    if (home.x - x1)^2 + (home.y - y1)^2 + (home.z - z1)^2 < 1/10000 then
      { nodePos := home, storedPos := home, storedMode := "none" }
    else
      { s with nodePos := ⟨x1, y1, z1⟩ }
  else s

/-- The spec's returning-mode scenario: an object at position (10, 0, 0),
home (0, 0, 0), movement speed 1, iterated frame by frame. -/
def retScenario : Nat → RetState
  | 0 => { nodePos := ⟨10, 0, 0⟩, storedPos := ⟨10, 0, 0⟩,
           storedMode := "returning" }
  | n + 1 => animateReturning ⟨0, 0, 0⟩ 1 (retScenario n)

/-- Invariant of the returning scenario: the node stays on the
non-negative x-axis, and the stored mode is `returning` until the snap
commits, after which node and store sit exactly at home. -/
def RetInv (s : RetState) : Prop :=
  s.nodePos.y = 0 ∧ s.nodePos.z = 0 ∧ 0 ≤ s.nodePos.x ∧
    (s.storedMode = "returning" ∨
      (s.storedMode = "none" ∧ s.nodePos = ⟨0, 0, 0⟩ ∧ s.storedPos = ⟨0, 0, 0⟩))

/-- The cached (type, radius, height) triple of a live node agrees with the
object's current shape-defining values (the comparison of App.tsx lines
450-454). -/
def cacheMatches (mesh : Mesh) (obj : ShapeObject) : Prop :=
  mesh.userDataType = obj.type ∧ mesh.userDataRadius = obj.radius ∧
    mesh.userDataHeight = obj.height

/-- A second concrete store entry, used to exercise the operations on a
two-object store. -/
def secondObject : ShapeObject :=
  { initialObject with id := "2", name := "Secondary" }

/-- The orbit-movement case of the frame loop (App.tsx lines 342-347), at
elapsed time `t`: the node's x and z are set absolutely from the home
position, the y is left untouched.  `range || 5` is the JavaScript falsy
fallback, which for a non-negative numeric range fires exactly at 0.  The
trigonometric functions are passed in as the source calls the opaque
Math.cos / Math.sin; the numeric field is a parameter so that the
definition stays executable, and the theorems instantiate it at ℝ. -/
def animateOrbit {α : Type} [Field α] [DecidableEq α] (cos sin : α → α)
    (home : Vec3 α) (speed range t : α) (p : Vec3 α) : Vec3 α :=
  let orbitRadius := if range = 0 then 5 else range
  let orbitSpeed := speed * (1/2)
  ⟨home.x + cos (t * orbitSpeed) * orbitRadius,
   p.y,
   home.z + sin (t * orbitSpeed) * orbitRadius⟩

/-- Claim C7: `createGeometry` is a pure, deterministic, total function:
for each of the 13 shape kinds and any radius and height it returns the
primitive of the mapping table (cube a box of side 2·radius on all three
axes, torus a tube radius of radius/3 with 64×64 segments, pyramid a
4-sided cone, the prisms 3/5/6/8-sided cylinders, the platonic solids from
the radius only), and any unrecognized shape kind falls back to a sphere
rather than failing. -/
theorem createGeometry_total (r h : ℚ) :
    createGeometry "sphere" r h = .sphereGeo r 64 64 ∧
    createGeometry "cylinder" r h = .cylinderGeo r r h 64 ∧
    createGeometry "cube" r h = .boxGeo (r * 2) (r * 2) (r * 2) ∧
    createGeometry "cone" r h = .coneGeo r h 64 ∧
    createGeometry "torus" r h = .torusGeo r (r / 3) 64 64 ∧
    createGeometry "pyramid" r h = .coneGeo r h 4 ∧
    createGeometry "prism" r h = .cylinderGeo r r h 3 ∧
    createGeometry "pentagonalPrism" r h = .cylinderGeo r r h 5 ∧
    createGeometry "hexagonalPrism" r h = .cylinderGeo r r h 6 ∧
    createGeometry "octagonalPrism" r h = .cylinderGeo r r h 8 ∧
    createGeometry "tetrahedron" r h = .tetrahedronGeo r ∧
    createGeometry "dodecahedron" r h = .dodecahedronGeo r ∧
    createGeometry "icosahedron" r h = .icosahedronGeo r ∧
    (∀ t : String,
      t ∉ ["sphere", "cylinder", "cube", "cone", "torus", "pyramid", "prism",
           "pentagonalPrism", "hexagonalPrism", "octagonalPrism",
           "tetrahedron", "dodecahedron", "icosahedron"] →
      createGeometry t r h = .sphereGeo r 64 64) := by
  refine ⟨rfl, rfl, rfl, rfl, rfl, rfl, rfl, rfl, rfl, rfl, rfl, rfl, rfl, ?_⟩
  intro t ht
  simp only [List.mem_cons, List.not_mem_nil, or_false, not_or] at ht
  obtain ⟨h1, h2, h3, h4, h5, h6, h7, h8, h9, h10, h11, h12, h13⟩ := ht
  simp [createGeometry, h1, h2, h3, h4, h5, h6, h7, h8, h9, h10, h11, h12, h13]

/-- Claim C5: in straight mode the node's z increases by 0.02·speed each
frame; on any frame where the updated |node.z − home.z| exceeds 50 the z
is reset to home.z − 50 (with home.z = 0 and speed = 1 the wrap target is
−50), and the result always stays within 50 of home, a bounded looping
traversal. -/
theorem straight_mode_wrap :
    (∀ homeZ speed z : ℚ, |z + 1/50 * speed - homeZ| ≤ 50 →
        animateStraight homeZ speed z = z + 1/50 * speed) ∧
    (∀ homeZ speed z : ℚ, 50 < |z + 1/50 * speed - homeZ| →
        animateStraight homeZ speed z = homeZ - 50) ∧
    (∀ z : ℚ, 50 < z → animateStraight 0 1 z = -50) ∧
    (∀ homeZ speed z : ℚ, |animateStraight homeZ speed z - homeZ| ≤ 50) := by
  refine ⟨?_, ?_, ?_, ?_⟩
  · intro homeZ speed z h
    simp only [animateStraight]
    rw [if_neg (not_lt.mpr h)]
  · intro homeZ speed z h
    simp only [animateStraight]
    rw [if_pos h]
  · intro z h
    simp only [animateStraight]
    rw [if_pos, zero_sub]
    rw [abs_of_pos (by linarith)]
    linarith
  · intro homeZ speed z
    simp only [animateStraight]
    by_cases h : 50 < |z + 1/50 * speed - homeZ|
    · rw [if_pos h]
      rw [show homeZ - 50 - homeZ = -50 by ring]
      rw [abs_neg, abs_of_pos (by norm_num)]
    · rw [if_neg h]
      exact not_lt.mp h

/-- Claim C9 (code bug witness): the object built by `addObject` draws
`Math.random()` again for `originalPosition` instead of reusing the draws
of `position`, so with draws 0, 0 for the position and 1, 1 for the home
the two differ: position (−5, 2, −5) against home (5, 2, 5), contradicting
the spec's "home = initial position" at creation.  The last conjunct shows
the object is appended to the store as built. -/
theorem addObject_home_mismatch :
    (newShapeObject "a" 0 0 "#ffffff" 1 1 1).position =
      ⟨(0 - 1/2) * 10, 2, (0 - 1/2) * 10⟩ ∧
    (newShapeObject "a" 0 0 "#ffffff" 1 1 1).originalPosition =
      ⟨(1 - 1/2) * 10, 2, (1 - 1/2) * 10⟩ ∧
    (newShapeObject "a" 0 0 "#ffffff" 1 1 1).originalPosition ≠
      (newShapeObject "a" 0 0 "#ffffff" 1 1 1).position ∧
    addObject "a" 0 0 "#ffffff" 1 1 [initialObject] =
      [initialObject, newShapeObject "a" 0 0 "#ffffff" 1 1 1] := by
  refine ⟨rfl, rfl, ?_, rfl⟩
  simp only [newShapeObject, ne_eq, Vec3.mk.injEq, not_and]
  intro hx
  norm_num at hx

/-- Claim C6: in orbit mode the node position at elapsed time t satisfies
x = hx + cos(t·speed·0.5)·r and z = hz + sin(t·speed·0.5)·r where r is the
movement range, or 5 if the range is zero, while y is untouched; for home
(0,0,0), speed 1, range 5 the position is (5, y, 0) at t = 0 and again
exactly (5, y, 0) at t = 2π/0.5, one full period. -/
theorem orbit_formula :
    (∀ (cos sin : ℝ → ℝ) (home : Vec3 ℝ) (speed range t : ℝ) (p : Vec3 ℝ),
        animateOrbit cos sin home speed range t p =
          ⟨home.x + cos (t * (speed * (1/2))) * (if range = 0 then 5 else range),
           p.y,
           home.z + sin (t * (speed * (1/2))) * (if range = 0 then 5 else range)⟩) ∧
    (∀ p : Vec3 ℝ,
        animateOrbit Real.cos Real.sin ⟨0, 0, 0⟩ 1 5 0 p = ⟨5, p.y, 0⟩) ∧
    (∀ p : Vec3 ℝ,
        animateOrbit Real.cos Real.sin ⟨0, 0, 0⟩ 1 5 (2 * Real.pi / (1/2)) p =
          ⟨5, p.y, 0⟩) := by
  refine ⟨fun cos sin home speed range t p => rfl, ?_, ?_⟩
  · intro p
    simp only [animateOrbit, Vec3.mk.injEq]
    norm_num
  · intro p
    simp only [animateOrbit, Vec3.mk.injEq]
    rw [show 2 * Real.pi / (1/2) * (1 * (1/2)) = 2 * Real.pi by ring]
    rw [Real.cos_two_pi, Real.sin_two_pi]
    norm_num

/-- Filtering one id out of a store with at least two objects and distinct
ids leaves a non-empty store. -/
theorem filter_id_ne_nil (i : String) (objects : List ShapeObject)
    (hnd : (objects.map ShapeObject.id).Nodup) (h2 : 2 ≤ objects.length) :
    objects.filter (fun o => decide (o.id ≠ i)) ≠ [] := by
  match objects, h2 with
  | o :: rest, h2 =>
    rw [List.map_cons] at hnd
    by_cases h : o.id = i
    · have hni : i ∉ rest.map ShapeObject.id := by
        have h1 := (List.nodup_cons.mp hnd).1
        rwa [h] at h1
      have hrest : rest.filter (fun o2 => decide (o2.id ≠ i)) = rest := by
        refine List.filter_eq_self.mpr fun o2 hmem => ?_
        simp only [decide_eq_true_eq]
        intro heq
        exact hni (heq ▸ List.mem_map_of_mem ShapeObject.id hmem)
      have hne : rest ≠ [] := by
        intro hnil
        rw [hnil] at h2
        simp at h2
      rw [List.filter_cons, if_neg (by simp [h]), hrest]
      exact hne
    · rw [List.filter_cons, if_pos (by simp [h])]
      exact List.cons_ne_nil _ _

/-- One `deleteObject` keeps the store non-empty and keeps its ids
distinct. -/
theorem deleteObject_preserves (i : String) (objects : List ShapeObject)
    (sel : Option String) (hne : objects ≠ [])
    (hnd : (objects.map ShapeObject.id).Nodup) :
    (deleteObject i objects sel).1 ≠ [] ∧
      ((deleteObject i objects sel).1.map ShapeObject.id).Nodup := by
  by_cases hlen : objects.length ≤ 1
  · simp only [deleteObject, if_pos hlen]
    exact ⟨hne, hnd⟩
  · push_neg at hlen
    simp only [deleteObject, if_neg (not_le.mpr hlen)]
    refine ⟨filter_id_ne_nil i objects hnd hlen, ?_⟩
    have hf : (objects.filter (fun o => decide (o.id ≠ i))).Sublist objects :=
      List.filter_sublist objects
    exact hnd.sublist (hf.map ShapeObject.id)

/-- Any sequence of deletes keeps a non-empty store with distinct ids
non-empty. -/
theorem foldl_delete_ne_nil (ids : List String) :
    ∀ (objects : List ShapeObject) (sel : Option String), objects ≠ [] →
      (objects.map ShapeObject.id).Nodup →
      (ids.foldl (fun st i => deleteObject i st.1 st.2) (objects, sel)).1 ≠ [] := by
  induction ids with
  | nil => intro objects sel hne _; simpa using hne
  | cons i rest ih =>
    intro objects sel hne hnd
    rw [List.foldl_cons]
    exact ih _ _ (deleteObject_preserves i objects sel hne hnd).1
      (deleteObject_preserves i objects sel hne hnd).2

/-- Claim C8: `deleteObject` on the last remaining object is a no-op that
leaves store and selection unchanged, and for any sequence of delete
operations starting from a non-empty store with distinct ids the store
never reaches zero objects. -/
theorem deleteObject_never_empty :
    (∀ (id : String) (objects : List ShapeObject) (sel : Option String),
        objects.length = 1 → deleteObject id objects sel = (objects, sel)) ∧
    (∀ (ids : List String) (objects : List ShapeObject) (sel : Option String),
        objects ≠ [] → (objects.map ShapeObject.id).Nodup →
        (ids.foldl (fun st i => deleteObject i st.1 st.2) (objects, sel)).1 ≠ []) := by
  constructor
  · intro id objects sel h
    simp [deleteObject, h]
  · intro ids objects sel hne hnd
    exact foldl_delete_ne_nil ids objects sel hne hnd

/-- Claim C10: after a successful `deleteObject` on a store with more than
one object, the selection still refers to an object of the store: when the
deleted id was the selected one the selection moves to the first remaining
object, otherwise it is unchanged. -/
theorem deleteObject_selection_valid (id : String) (objects : List ShapeObject)
    (sel : Option String)
    (hlen : 1 < objects.length)
    (hsel : ∀ s, sel = some s → s ∈ objects.map ShapeObject.id) :
    (∀ s, (deleteObject id objects sel).2 = some s →
        s ∈ (deleteObject id objects sel).1.map ShapeObject.id) ∧
    (sel = some id →
        (deleteObject id objects sel).2 =
          Option.map ShapeObject.id (deleteObject id objects sel).1.head?) ∧
    (sel ≠ some id → (deleteObject id objects sel).2 = sel) := by
  have hgt : ¬ objects.length ≤ 1 := not_le.mpr hlen
  simp only [deleteObject, if_neg hgt]
  refine ⟨?_, ?_, ?_⟩
  · intro s hs
    by_cases hcase : sel = some id
    · rw [if_pos hcase] at hs
      obtain ⟨o, ho, rfl⟩ := Option.map_eq_some'.mp hs
      exact List.mem_map_of_mem ShapeObject.id (List.mem_of_mem_head? ho)
    · rw [if_neg hcase] at hs
      have hmem := hsel s hs
      have hsne : s ≠ id := by
        rintro rfl
        exact hcase (hs ▸ rfl)
      obtain ⟨o, ho, rfl⟩ := List.mem_map.mp hmem
      refine List.mem_map_of_mem ShapeObject.id ?_
      rw [List.mem_filter]
      simpa [hsne] using ho
  · intro h
    rw [if_pos h]
  · intro h
    rw [if_neg h]

/-- Witness for C10 at a concrete two-object store with the selected
object deleted. -/
theorem deleteObject_selection_valid_witness :
    (∀ s, (deleteObject "2" [initialObject, secondObject] (some "2")).2 = some s →
        s ∈ (deleteObject "2" [initialObject, secondObject] (some "2")).1.map
          ShapeObject.id) ∧
    (some "2" = some "2" →
        (deleteObject "2" [initialObject, secondObject] (some "2")).2 =
          Option.map ShapeObject.id
            (deleteObject "2" [initialObject, secondObject] (some "2")).1.head?) ∧
    (some "2" ≠ some "2" →
        (deleteObject "2" [initialObject, secondObject] (some "2")).2 = some "2") :=
  deleteObject_selection_valid "2" [initialObject, secondObject] (some "2")
    (by decide)
    (fun s hs => by
      rw [Option.some.injEq] at hs
      rw [← hs]
      decide)

/-- Unfolding one frame of the returning scenario. -/
theorem retScenario_succ (n : Nat) :
    retScenario (n + 1) = animateReturning ⟨0, 0, 0⟩ 1 (retScenario n) := rfl

/-- A frame leaves an object alone when its stored mode is not
`returning`. -/
theorem animateReturning_not_returning (home : Vec3 ℚ) (speed : ℚ)
    (s : RetState) (h : s.storedMode ≠ "returning") :
    animateReturning home speed s = s := by
  simp [animateReturning, h]

/-- Closed form of the scenario before the snap: while
10·(19/20)^n is still at least the snap threshold 1/100, the node sits at
x = 10·(19/20)^n with the store untouched. -/
theorem ret_pre (n : Nat) (h : 1/100 ≤ 10 * ((19 : ℚ)/20)^n) :
    retScenario n =
      { nodePos := ⟨10 * ((19 : ℚ)/20)^n, 0, 0⟩, storedPos := ⟨10, 0, 0⟩,
        storedMode := "returning" } := by
  induction n with
  | zero =>
    simp [retScenario]
  | succ n ih =>
    have hpow : (0 : ℚ) ≤ ((19 : ℚ)/20)^n := pow_nonneg (by norm_num) n
    rw [pow_succ] at h
    have h0 : 1/100 ≤ 10 * ((19 : ℚ)/20)^n := by nlinarith
    rw [retScenario_succ, ih h0]
    rw [pow_succ]
    simp only [animateReturning]
    rw [if_pos trivial]
    split
    · rename_i hs
      exfalso
      nlinarith [hs]
    · rw [show (10 : ℚ) * ((19 : ℚ)/20)^n + (0 - 10 * ((19 : ℚ)/20)^n) * (1/20 * 1) =
          10 * (((19 : ℚ)/20)^n * (19/20)) by ring]
      rw [show (0 : ℚ) + (0 - 0) * (1/20 * 1) = 0 by ring]

/-- The snap frame: at step 135 the threshold is crossed, the node is
snapped to home and the commit writes position (0,0,0) and mode `none`
into the store. -/
theorem ret_snap :
    retScenario 135 =
      { nodePos := ⟨0, 0, 0⟩, storedPos := ⟨0, 0, 0⟩, storedMode := "none" } := by
  have h134 := ret_pre 134 (by norm_num)
  rw [show (135 : Nat) = 134 + 1 from rfl, retScenario_succ, h134]
  simp only [animateReturning]
  rw [if_pos trivial]
  split
  · rfl
  · rename_i hs
    exfalso
    apply hs
    norm_num

/-- Invariant of the returning scenario at every step. -/
theorem retScenario_inv (n : Nat) : RetInv (retScenario n) := by
  induction n with
  | zero =>
    refine ⟨rfl, rfl, by show (0 : ℚ) ≤ 10; norm_num, Or.inl rfl⟩
  | succ n ih =>
    obtain ⟨hy, hz, hx, hmode⟩ := ih
    rcases hmode with hm | ⟨hm, hpos, hsp⟩
    · rw [retScenario_succ]
      simp only [animateReturning, hm]
      rw [if_pos trivial]
      split
      · exact ⟨rfl, rfl, le_refl 0, Or.inr ⟨rfl, rfl, rfl⟩⟩
      · refine ⟨by rw [hy]; ring, by rw [hz]; ring, ?_, Or.inl rfl⟩
        have : (retScenario n).nodePos.x + (0 - (retScenario n).nodePos.x) * (1/20 * 1) =
            (retScenario n).nodePos.x * (19/20) := by ring
        rw [this]
        positivity
    · rw [retScenario_succ,
        animateReturning_not_returning _ _ _ (by rw [hm]; decide)]
      exact ⟨hy, hz, hx, Or.inr ⟨hm, hpos, hsp⟩⟩

/-- Each scenario frame moves the node no further from home, strictly
closer while it is away from home. -/
theorem retScenario_step (n : Nat) :
    (retScenario (n + 1)).nodePos.x ≤ (retScenario n).nodePos.x ∧
      ((retScenario n).nodePos.x ≠ 0 →
        (retScenario (n + 1)).nodePos.x < (retScenario n).nodePos.x) := by
  obtain ⟨hy, hz, hx, hmode⟩ := retScenario_inv n
  rcases hmode with hm | ⟨hm, hpos, hsp⟩
  · rw [retScenario_succ]
    simp only [animateReturning, hm]
    rw [if_pos trivial]
    split
    · constructor
      · exact hx
      · intro hne
        exact lt_of_le_of_ne hx (Ne.symm hne)
    · have heq : (retScenario n).nodePos.x + (0 - (retScenario n).nodePos.x) * (1/20 * 1) =
          (retScenario n).nodePos.x * (19/20) := by ring
      constructor
      · show (retScenario n).nodePos.x + (0 - (retScenario n).nodePos.x) * (1/20 * 1) ≤ _
        rw [heq]
        nlinarith
      · intro hne
        show (retScenario n).nodePos.x + (0 - (retScenario n).nodePos.x) * (1/20 * 1) < _
        rw [heq]
        have hpos2 : 0 < (retScenario n).nodePos.x := lt_of_le_of_ne hx (Ne.symm hne)
        nlinarith
  · rw [retScenario_succ,
      animateReturning_not_returning _ _ _ (by rw [hm]; decide)]
    refine ⟨le_refl _, fun hne => absurd ?_ hne⟩
    rw [hpos]

/-- Claim C4: in returning mode a frame either moves every axis of the
node by (home.axis − node.axis)·(0.05·speed), or — when the Euclidean
distance of the moved position to home falls below 0.01, stated here on
squared distances — snaps the node exactly to home and commits position =
home and movementMode = none to the store.  For the spec's scenario
(position (10,0,0), home (0,0,0), speed 1) the node stays on the
non-negative x-axis so its distance to home is its x coordinate, which
never increases and strictly decreases while non-zero, and by frame 135
the store holds exactly position (0,0,0) and mode `none`. -/
theorem returning_convergence :
    (∀ (home : Vec3 ℚ) (speed : ℚ) (s : RetState), s.storedMode = "returning" →
        (animateReturning home speed s).nodePos = home ∨
        ((animateReturning home speed s).nodePos.x - s.nodePos.x =
            (home.x - s.nodePos.x) * (1/20 * speed) ∧
         (animateReturning home speed s).nodePos.y - s.nodePos.y =
            (home.y - s.nodePos.y) * (1/20 * speed) ∧
         (animateReturning home speed s).nodePos.z - s.nodePos.z =
            (home.z - s.nodePos.z) * (1/20 * speed))) ∧
    (∀ (home : Vec3 ℚ) (speed : ℚ) (s : RetState), s.storedMode = "returning" →
        (home.x - (s.nodePos.x + (home.x - s.nodePos.x) * (1/20 * speed)))^2 +
          (home.y - (s.nodePos.y + (home.y - s.nodePos.y) * (1/20 * speed)))^2 +
          (home.z - (s.nodePos.z + (home.z - s.nodePos.z) * (1/20 * speed)))^2
            < 1/10000 →
        animateReturning home speed s =
          { nodePos := home, storedPos := home, storedMode := "none" }) ∧
    (∀ n : Nat, (retScenario n).nodePos.y = 0 ∧ (retScenario n).nodePos.z = 0 ∧
        0 ≤ (retScenario n).nodePos.x) ∧
    (∀ n : Nat, (retScenario (n + 1)).nodePos.x ≤ (retScenario n).nodePos.x) ∧
    (∀ n : Nat, (retScenario n).nodePos.x ≠ 0 →
        (retScenario (n + 1)).nodePos.x < (retScenario n).nodePos.x) ∧
    retScenario 135 =
      { nodePos := ⟨0, 0, 0⟩, storedPos := ⟨0, 0, 0⟩, storedMode := "none" } := by
  refine ⟨?_, ?_, ?_, fun n => (retScenario_step n).1, fun n => (retScenario_step n).2, ret_snap⟩
  · intro home speed s h
    simp only [animateReturning, h]
    rw [if_pos trivial]
    split
    · exact Or.inl rfl
    · refine Or.inr ⟨by ring, by ring, by ring⟩
  · intro home speed s h hlt
    simp only [animateReturning, h]
    rw [if_pos trivial, if_pos hlt]
  · intro n
    obtain ⟨hy, hz, hx, -⟩ := retScenario_inv n
    exact ⟨hy, hz, hx⟩

/-- A successful lookup means the key is present. -/
theorem lookupMesh_mem {id : String} {m : MeshMap} {v : Mesh}
    (h : lookupMesh id m = some v) : id ∈ m.map Prod.fst := by
  induction m with
  | nil => simp [lookupMesh] at h
  | cons p rest ih =>
    rw [lookupMesh] at h
    by_cases hp : p.1 = id
    · simp [hp]
    · rw [if_neg hp] at h
      simp [ih h]

/-- Replacing a value does not change the key set. -/
theorem setMesh_keys (id : String) (mesh : Mesh) (m : MeshMap) :
    (setMesh id mesh m).map Prod.fst = m.map Prod.fst := by
  induction m with
  | nil => rfl
  | cons p rest ih =>
    rw [setMesh]
    by_cases hp : p.1 = id
    · rw [if_pos hp]
      simp [ih, hp]
    · rw [if_neg hp]
      simp [ih]

/-- Replacing the value at one key leaves lookups of other keys alone. -/
theorem lookupMesh_setMesh_ne {j id : String} (h : j ≠ id) (mesh : Mesh)
    (m : MeshMap) : lookupMesh j (setMesh id mesh m) = lookupMesh j m := by
  induction m with
  | nil => rfl
  | cons p rest ih =>
    rw [setMesh]
    by_cases hp : p.1 = id
    · rw [if_pos hp, lookupMesh, lookupMesh]
      rw [if_neg fun hh => h hh.symm, if_neg fun hh => h (hp ▸ hh).symm]
      exact ih
    · rw [if_neg hp, lookupMesh, lookupMesh]
      by_cases hj : p.1 = j
      · rw [if_pos hj, if_pos hj]
      · rw [if_neg hj, if_neg hj]
        exact ih

/-- Replacing the value at a present key makes lookups return it. -/
theorem lookupMesh_setMesh_self {id : String} {m : MeshMap} {v : Mesh}
    (h : lookupMesh id m = some v) (mesh : Mesh) :
    lookupMesh id (setMesh id mesh m) = some mesh := by
  induction m with
  | nil => simp [lookupMesh] at h
  | cons p rest ih =>
    rw [lookupMesh] at h
    rw [setMesh]
    by_cases hp : p.1 = id
    · rw [if_pos hp, lookupMesh, if_pos rfl]
    · rw [if_neg hp] at h
      rw [if_neg hp, lookupMesh, if_neg hp]
      exact ih h

/-- Appending an entry under a different key leaves a lookup alone. -/
theorem lookupMesh_append_ne (id : String) (q : String × Mesh) (m : MeshMap)
    (h : q.1 ≠ id) : lookupMesh id (m ++ [q]) = lookupMesh id m := by
  induction m with
  | nil => simp [lookupMesh, if_neg h]
  | cons p rest ih =>
    rw [List.cons_append, lookupMesh, lookupMesh]
    by_cases hp : p.1 = id
    · rw [if_pos hp, if_pos hp]
    · rw [if_neg hp, if_neg hp]
      exact ih

/-- Appending an entry under an absent key makes its lookup find it. -/
theorem lookupMesh_append_self (id : String) (v : Mesh) (m : MeshMap)
    (h : lookupMesh id m = none) : lookupMesh id (m ++ [(id, v)]) = some v := by
  induction m with
  | nil => simp [lookupMesh]
  | cons p rest ih =>
    rw [lookupMesh] at h
    by_cases hp : p.1 = id
    · rw [if_pos hp] at h
      exact absurd h (by simp)
    · rw [if_neg hp] at h
      rw [List.cons_append, lookupMesh, if_neg hp]
      exact ih h

/-- Key set of the add-or-update fold: the incoming keys together with the
ids of the processed objects. -/
theorem foldl_sync_keys (objs : List ShapeObject) :
    ∀ (m : MeshMap) (c : Counts) (id : String),
      id ∈ (objs.foldl syncObject (m, c)).1.map Prod.fst ↔
        id ∈ m.map Prod.fst ∨ id ∈ objs.map ShapeObject.id := by
  induction objs with
  | nil =>
    intro m c id
    simp
  | cons obj rest ih =>
    intro m c id
    rw [List.foldl_cons]
    rcases hl : lookupMesh obj.id m with _ | mesh
    · simp only [syncObject, hl]
      rw [ih]
      simp only [List.map_append, List.map_cons, List.mem_append, List.map_nil,
        List.mem_cons, List.mem_singleton, List.not_mem_nil, or_false]
      tauto
    · simp only [syncObject, hl]
      rw [ih, setMesh_keys]
      have hmem : obj.id ∈ m.map Prod.fst := lookupMesh_mem hl
      simp only [List.map_cons, List.mem_cons]
      constructor
      · tauto
      · rintro (hm | hid | hr)
        · exact Or.inl hm
        · exact Or.inl (hid ▸ hmem)
        · exact Or.inr hr

/-- Key set of phase 1: the mesh keys that survive are exactly those still
among the store ids. -/
theorem pruneMeshes_keys (objects : List ShapeObject) (meshes : MeshMap)
    (id : String) :
    id ∈ (pruneMeshes objects meshes).map Prod.fst ↔
      id ∈ meshes.map Prod.fst ∧ id ∈ objects.map ShapeObject.id := by
  simp only [pruneMeshes, List.mem_map, List.mem_filter, decide_eq_true_eq]
  constructor
  · rintro ⟨p, ⟨hp, hid⟩, rfl⟩
    exact ⟨⟨p, hp, rfl⟩, hid⟩
  · rintro ⟨⟨p, hp, rfl⟩, hid⟩
    exact ⟨p, ⟨hp, hid⟩, rfl⟩

/-- After one reconciliation pass the live keys are exactly the store
ids. -/
theorem reconcile_keys (objects : List ShapeObject) (meshes : MeshMap)
    (id : String) :
    id ∈ (reconcile objects meshes).1.map Prod.fst ↔
      id ∈ objects.map ShapeObject.id := by
  have h : (reconcile objects meshes).1 =
      (objects.foldl syncObject
        (pruneMeshes objects meshes,
         ⟨0, meshes.length - (pruneMeshes objects meshes).length,
          0, meshes.length - (pruneMeshes objects meshes).length⟩)).1 := rfl
  rw [h, foldl_sync_keys, pruneMeshes_keys]
  tauto

/-- Claim C1: for every ObjectStore snapshot and any prior mesh map, after
one reconciliation pass the set of ids with a live scene node equals
exactly the set of ids in the store: every store entry has a node, and
every node whose id left the store has been removed. -/
theorem reconcile_completeness :
    ∀ (objects : List ShapeObject) (meshes : MeshMap) (id : String),
      id ∈ (reconcile objects meshes).1.map Prod.fst ↔
        id ∈ objects.map ShapeObject.id :=
  fun objects meshes id => reconcile_keys objects meshes id

/-- The fold leaves lookups of ids it never processes alone. -/
theorem foldl_sync_lookup (objs : List ShapeObject) :
    ∀ (m : MeshMap) (c : Counts) (id : String), id ∉ objs.map ShapeObject.id →
      lookupMesh id (objs.foldl syncObject (m, c)).1 = lookupMesh id m := by
  induction objs with
  | nil => intros; rfl
  | cons obj rest ih =>
    intro m c id hid
    simp only [List.map_cons, List.mem_cons, not_or] at hid
    obtain ⟨hne, hrest⟩ := hid
    rw [List.foldl_cons]
    rcases hl : lookupMesh obj.id m with _ | mesh
    · simp only [syncObject, hl]
      rw [ih _ _ _ hrest, lookupMesh_append_ne _ _ _ fun hh => hne hh.symm]
    · simp only [syncObject, hl]
      rw [ih _ _ _ hrest, lookupMesh_setMesh_ne hne _ _]

/-- The update branch always leaves the cached triple agreeing with the
object. -/
theorem applyUpdate_userData (obj : ShapeObject) (mesh : Mesh) :
    cacheMatches (applyUpdate obj mesh).1 obj := by
  rw [applyUpdate]
  split
  · exact ⟨rfl, rfl, rfl⟩
  · rename_i hcond
    push_neg at hcond
    exact hcond

/-- When the cached triple matches, the update branch only refreshes the
transform and material: no geometry disposal, no rebuild, cache kept. -/
theorem applyUpdate_of_match (obj : ShapeObject) (mesh : Mesh)
    (h : cacheMatches mesh obj) :
    applyUpdate obj mesh =
      ({ mesh with
          position := obj.position
          rotation := obj.rotation
          scale := obj.scale
          material := materialOf obj }, ⟨0, 0, 0, 0⟩) := by
  obtain ⟨h1, h2, h3⟩ := h
  rw [applyUpdate, if_neg]
  push_neg
  exact ⟨h1, h2, h3⟩

/-- After the fold over a store with distinct ids, every store object has
a live mesh whose cached triple agrees with it. -/
theorem foldl_sync_cache (objs : List ShapeObject) :
    ∀ (m : MeshMap) (c : Counts), (objs.map ShapeObject.id).Nodup →
      ∀ obj ∈ objs, ∃ mesh,
        lookupMesh obj.id (objs.foldl syncObject (m, c)).1 = some mesh ∧
          cacheMatches mesh obj := by
  induction objs with
  | nil =>
    intro m c _ obj h
    simp at h
  | cons o rest ih =>
    intro m c hnd obj hmem
    rw [List.map_cons] at hnd
    have hno : o.id ∉ rest.map ShapeObject.id := (List.nodup_cons.mp hnd).1
    have hndr : (rest.map ShapeObject.id).Nodup := (List.nodup_cons.mp hnd).2
    rw [List.foldl_cons]
    rcases List.mem_cons.mp hmem with rfl | hr
    · rcases hl : lookupMesh obj.id m with _ | mesh
      · simp only [syncObject, hl]
        refine ⟨createMesh obj, ?_, ⟨rfl, rfl, rfl⟩⟩
        rw [foldl_sync_lookup _ _ _ _ hno, lookupMesh_append_self _ _ _ hl]
      · simp only [syncObject, hl]
        refine ⟨(applyUpdate obj mesh).1, ?_, applyUpdate_userData obj mesh⟩
        rw [foldl_sync_lookup _ _ _ _ hno, lookupMesh_setMesh_self hl _]
    · rcases hl : lookupMesh o.id m with _ | mesh
      · simp only [syncObject, hl]
        exact ih _ _ hndr obj hr
      · simp only [syncObject, hl]
        exact ih _ _ hndr obj hr

/-- When every store object already has a cache-matching mesh, the fold
performs no allocation and no disposal. -/
theorem foldl_sync_counts (objs : List ShapeObject) :
    ∀ (m : MeshMap) (c : Counts),
      (∀ obj ∈ objs, ∃ mesh, lookupMesh obj.id m = some mesh ∧
        cacheMatches mesh obj) →
      (objs.foldl syncObject (m, c)).2 = c := by
  induction objs with
  | nil => intros; rfl
  | cons o rest ih =>
    intro m c hinv
    obtain ⟨mesh, hl, hc⟩ := hinv o (List.mem_cons_self o rest)
    rw [List.foldl_cons]
    simp only [syncObject, hl, applyUpdate_of_match o mesh hc]
    have hinv2 : ∀ obj ∈ rest, ∃ mesh2,
        lookupMesh obj.id (setMesh o.id
          { mesh with
              position := o.position
              rotation := o.rotation
              scale := o.scale
              material := materialOf o } m) = some mesh2 ∧
          cacheMatches mesh2 obj := by
      intro obj hobj
      obtain ⟨mesh2, hl2, hc2⟩ := hinv obj (List.mem_cons_of_mem o hobj)
      by_cases he : obj.id = o.id
      · rw [he] at hl2 ⊢
        have hms : mesh2 = mesh := by
          rw [hl2] at hl
          exact ((Option.some.injEq _ _).mp hl.symm).symm
        subst hms
        exact ⟨_, lookupMesh_setMesh_self hl2 _, hc2⟩
      · rw [lookupMesh_setMesh_ne he _ _]
        exact ⟨mesh2, hl2, hc2⟩
    rw [ih _ _ hinv2]
    simp

/-- When every surviving mesh key is still a store id, phase 1 removes
nothing. -/
theorem pruneMeshes_of_sub (objects : List ShapeObject) (meshes : MeshMap)
    (h : ∀ p ∈ meshes, p.1 ∈ objects.map ShapeObject.id) :
    pruneMeshes objects meshes = meshes :=
  List.filter_eq_self.mpr fun p hp => by simpa using h p hp

/-- Claim C2: reconciliation is idempotent: with the store snapshot
unchanged, a second reconciliation pass performs zero geometry
allocations, zero geometry disposals, zero material allocations and zero
material disposals. -/
theorem reconcile_idempotent (objects : List ShapeObject) (meshes : MeshMap)
    (hnd : (objects.map ShapeObject.id).Nodup) :
    (reconcile objects (reconcile objects meshes).1).2 = ⟨0, 0, 0, 0⟩ := by
  have hinv : ∀ obj ∈ objects, ∃ mesh,
      lookupMesh obj.id (reconcile objects meshes).1 = some mesh ∧
        cacheMatches mesh obj :=
    fun obj h => foldl_sync_cache objects _ _ hnd obj h
  have hkeys : ∀ p ∈ (reconcile objects meshes).1,
      p.1 ∈ objects.map ShapeObject.id := fun p hp =>
    (reconcile_keys objects meshes p.1).mp (List.mem_map_of_mem Prod.fst hp)
  have hprune : pruneMeshes objects (reconcile objects meshes).1 =
      (reconcile objects meshes).1 := pruneMeshes_of_sub _ _ hkeys
  show (objects.foldl syncObject
    (pruneMeshes objects (reconcile objects meshes).1,
     ⟨0, (reconcile objects meshes).1.length -
        (pruneMeshes objects (reconcile objects meshes).1).length,
      0, (reconcile objects meshes).1.length -
        (pruneMeshes objects (reconcile objects meshes).1).length⟩)).2 = ⟨0, 0, 0, 0⟩
  rw [hprune, Nat.sub_self]
  exact foldl_sync_counts objects _ _ hinv

/-- Witness for C2: reconciling the initial store twice from an empty mesh
map does no work the second time. -/
theorem reconcile_idempotent_witness :
    (reconcile [initialObject] (reconcile [initialObject] []).1).2 =
      ⟨0, 0, 0, 0⟩ :=
  reconcile_idempotent [initialObject] [] (by decide)

/-- Claim C3: for an object with a live node whose cached triple is up to
date, a pass over a store that only changed the object's `color` performs
no geometry disposal or rebuild, while a pass after changing `radius` to a
different value disposes the old geometry and rebuilds it through
`createGeometry`; and the cached (type, radius, height) triple is the sole
trigger: the update branch is free of geometry churn exactly when the
triple matches the object. -/
theorem geometry_rebuild_minimality (obj : ShapeObject) (mesh : Mesh)
    (ht : mesh.userDataType = obj.type)
    (hr : mesh.userDataRadius = obj.radius)
    (hh : mesh.userDataHeight = obj.height) :
    (∀ c : String,
        (reconcile [{ obj with color := c }] [(obj.id, mesh)]).2 =
          ⟨0, 0, 0, 0⟩) ∧
    (∀ r : ℚ, r ≠ obj.radius →
        (reconcile [{ obj with radius := r }] [(obj.id, mesh)]).2 =
          ⟨1, 1, 0, 0⟩ ∧
        (∃ mesh2,
          lookupMesh obj.id
            (reconcile [{ obj with radius := r }] [(obj.id, mesh)]).1 =
              some mesh2 ∧
          mesh2.geometry = createGeometry obj.type r obj.height)) ∧
    (∀ o : ShapeObject, (applyUpdate o mesh).2 = ⟨0, 0, 0, 0⟩ ↔
        (mesh.userDataType = o.type ∧ mesh.userDataRadius = o.radius ∧
          mesh.userDataHeight = o.height)) := by
  have hprune : ∀ o1 : ShapeObject, o1.id = obj.id →
      pruneMeshes [o1] [(obj.id, mesh)] = [(obj.id, mesh)] := by
    intro o1 h1
    simp [pruneMeshes, h1]
  have hlook : lookupMesh obj.id [(obj.id, mesh)] = some mesh := by
    rw [lookupMesh, if_pos rfl]
  refine ⟨?_, ?_, ?_⟩
  · intro c
    show (List.foldl syncObject
      (pruneMeshes [{ obj with color := c }] [(obj.id, mesh)],
       ⟨0, [(obj.id, mesh)].length -
          (pruneMeshes [{ obj with color := c }] [(obj.id, mesh)]).length,
        0, [(obj.id, mesh)].length -
          (pruneMeshes [{ obj with color := c }] [(obj.id, mesh)]).length⟩)
      [{ obj with color := c }]).2 = ⟨0, 0, 0, 0⟩
    rw [hprune { obj with color := c } rfl]
    rw [List.foldl_cons, List.foldl_nil]
    have hm : cacheMatches mesh { obj with color := c } := ⟨ht, hr, hh⟩
    simp [syncObject, hlook, applyUpdate_of_match _ mesh hm]
  · intro r hne
    have hcond : mesh.userDataType ≠ ({ obj with radius := r } : ShapeObject).type ∨
        mesh.userDataRadius ≠ ({ obj with radius := r } : ShapeObject).radius ∨
        mesh.userDataHeight ≠ ({ obj with radius := r } : ShapeObject).height :=
      Or.inr (Or.inl (by rw [hr]; exact fun hh2 => hne hh2.symm))
    have happ : applyUpdate { obj with radius := r } mesh =
        ({ mesh with
            position := obj.position
            rotation := obj.rotation
            scale := obj.scale
            material := materialOf { obj with radius := r }
            geometry := createGeometry obj.type r obj.height
            userDataType := obj.type
            userDataRadius := r
            userDataHeight := obj.height }, ⟨1, 1, 0, 0⟩) := by
      rw [applyUpdate, if_pos hcond]
    constructor
    · show (List.foldl syncObject
        (pruneMeshes [{ obj with radius := r }] [(obj.id, mesh)],
         ⟨0, [(obj.id, mesh)].length -
            (pruneMeshes [{ obj with radius := r }] [(obj.id, mesh)]).length,
          0, [(obj.id, mesh)].length -
            (pruneMeshes [{ obj with radius := r }] [(obj.id, mesh)]).length⟩)
        [{ obj with radius := r }]).2 = ⟨1, 1, 0, 0⟩
      rw [hprune { obj with radius := r } rfl]
      rw [List.foldl_cons, List.foldl_nil]
      simp [syncObject, hlook, happ]
    · show ∃ mesh2,
        lookupMesh obj.id
          (List.foldl syncObject
            (pruneMeshes [{ obj with radius := r }] [(obj.id, mesh)],
             ⟨0, [(obj.id, mesh)].length -
                (pruneMeshes [{ obj with radius := r }] [(obj.id, mesh)]).length,
              0, [(obj.id, mesh)].length -
                (pruneMeshes [{ obj with radius := r }] [(obj.id, mesh)]).length⟩)
            [{ obj with radius := r }]).1 = some mesh2 ∧
          mesh2.geometry = createGeometry obj.type r obj.height
      rw [hprune { obj with radius := r } rfl]
      rw [List.foldl_cons, List.foldl_nil]
      simp only [syncObject, hlook, happ]
      exact ⟨_, lookupMesh_setMesh_self hlook _, rfl⟩
  · intro o
    rw [applyUpdate]
    split
    · rename_i hcond
      constructor
      · intro habs
        exact absurd habs (by simp)
      · intro htriple
        rcases hcond with h2 | h2 | h2
        · exact absurd htriple.1 h2
        · exact absurd htriple.2.1 h2
        · exact absurd htriple.2.2 h2
    · rename_i hcond
      push_neg at hcond
      exact iff_of_true rfl hcond

/-- Witness for C3 on the initial torus with its freshly created mesh: a
color-only change does no geometry work, a radius change from 3 to 4 does
one disposal and one rebuild. -/
theorem geometry_rebuild_minimality_witness :
    (reconcile [{ initialObject with color := "#ff0000" }]
      [(initialObject.id, createMesh initialObject)]).2 = ⟨0, 0, 0, 0⟩ ∧
    (reconcile [{ initialObject with radius := 4 }]
      [(initialObject.id, createMesh initialObject)]).2 = ⟨1, 1, 0, 0⟩ := by
  have h := geometry_rebuild_minimality initialObject
    (createMesh initialObject) rfl rfl rfl
  exact ⟨h.1 "#ff0000", (h.2.1 4 (by decide)).1⟩
